import Mathlib

/-!
# The workflow AST of actionlint (`syntax/ast.go`)

A shallow embedding of the Go package `syntax`: the position-carrying scalar
wrappers, the `Event`, `Exec` and `Runner` interfaces with their
implementations, and the aggregate nodes (`Permissions`, `Step`, `Job`,
`Workflow`, ...).

Conventions of the embedding.

* A Go pointer `*T` is `Go.ptr T = Option T`; `none` is the nil pointer.
* A Go slice `[]T` is `Go.slice T = Option (List T)`; `none` is the nil slice,
  `some []` the empty non-nil slice.
* A Go map `map[string]T` is `Go.map T = Option (Finmap ...)`: `none` is the nil
  map, and a non-nil map is a finite, key-unique, unordered table.
* A Go interface value is `Go.iface I = Option I`, where `I` is the sum of the
  implementations found in the package, each holding its (possibly nil)
  pointer; `none` is the nil interface.
* A method that dereferences a pointer returns `Except Go.Panic _`: the nil
  dereference is the run-time panic of Go.
-/

namespace Go

/-- Go `string`. -/
abbrev string := String

/-- Go `bool`. -/
abbrev bool := Bool

/-- Go `int`; the package does no arithmetic on it. -/
abbrev int := Int

/-- Go `float64`. -/
abbrev float64 := Float

/-- Go `uint8`. -/
abbrev uint8 := Fin 256

/-- Go pointer `*T`: `none` is nil. -/
abbrev ptr (α : Type) := Option α

/-- Go slice `[]T`: `none` is the nil slice. -/
abbrev slice (α : Type) := Option (List α)

/-- Go `map[string]T`: `none` is the nil map. -/
abbrev map (α : Type) := Option (Finmap (fun _ : string => α))

/-- Go interface value over the sum `α` of its implementations: `none` is the nil interface. -/
abbrev iface (α : Type) := Option α

/-- Run-time panics the package can raise. -/
inductive Panic where
  /-- The panic "invalid memory address or nil pointer dereference". -/
  | nilDereference
  deriving DecidableEq, Repr

/-- Dereference `*p`: panics on nil. -/
def deref {α : Type} : ptr α → Except Panic α
  | none => .error .nilDereference
  | some a => .ok a

/-- Builtin `len` on a slice: 0 for the nil slice. -/
def lenSlice {α : Type} : slice α → Nat
  | none => 0
  | some l => l.length

/-- Builtin `len` on a map: 0 for the nil map. -/
def lenMap {α : Type} : map α → Nat
  | none => 0
  | some m => m.keys.card

end Go

namespace Actionlint

/-- Pos represents position in the file. -/
structure Pos where
  Line : Go.int
  Col : Go.int
  deriving DecidableEq

/-- String represents generic string value in YAML file with position. -/
structure String where
  Value : Go.string
  Pos : Go.ptr Pos
  deriving DecidableEq

/-- Bool represents generic boolean value in YAML file with position. -/
structure Bool where
  Value : Go.bool
  Pos : Go.ptr Pos
  deriving DecidableEq

/-- Int represents generic integer value in YAML file with position. -/
structure Int where
  Value : Go.int
  Pos : Go.ptr Pos
  deriving DecidableEq

/-- Float represents generic float value in YAML file with position. -/
structure Float where
  Value : Go.float64
  Pos : Go.ptr Pos

/-- WebhookEvent represents event type based on webhook events. -/
structure WebhookEvent where
  Hook : Go.ptr String
  Types : Go.slice (Go.ptr String)
  Branches : Go.slice (Go.ptr String)
  BranchesIgnore : Go.slice (Go.ptr String)
  Tags : Go.slice (Go.ptr String)
  TagsIgnore : Go.slice (Go.ptr String)
  Paths : Go.slice (Go.ptr String)
  PathsIgnore : Go.slice (Go.ptr String)
  Workflows : Go.slice (Go.ptr String)
  Pos : Go.ptr Pos
  deriving DecidableEq

/-- The method `func (e *WebhookEvent) EventName() string { return e.Hook.Value }`:
both `e` and `e.Hook` are dereferenced. -/
def WebhookEvent.EventName (e : Go.ptr WebhookEvent) : Except Go.Panic Go.string := do
  let e ← Go.deref e
  let hook ← Go.deref e.Hook
  return hook.Value

/-- The node of the `schedule` trigger. -/
structure ScheduledEvent where
  Cron : Go.slice (Go.ptr String)
  Pos : Go.ptr Pos
  deriving DecidableEq

/-- The method `func (e *ScheduledEvent) EventName() string`: the receiver is not read. -/
def ScheduledEvent.EventName (_e : Go.ptr ScheduledEvent) : Go.string :=
  "schedule"

/-- One input of the `workflow_dispatch` trigger. -/
structure DispatchInput where
  Name : Go.ptr String
  Description : Go.ptr String
  Required : Go.ptr Bool
  Default : Go.ptr String
  deriving DecidableEq

/-- The node of the `workflow_dispatch` trigger. -/
structure WorkflowDispatchEvent where
  Inputs : Go.map (Go.ptr DispatchInput)
  Pos : Go.ptr Pos
  deriving DecidableEq

/-- The method `func (e *WorkflowDispatchEvent) EventName() string`: the receiver is not read. -/
def WorkflowDispatchEvent.EventName (_e : Go.ptr WorkflowDispatchEvent) : Go.string :=
  "workflow_dispatch"

/-- The node of the `repository_dispatch` trigger. -/
structure RepositoryDispatchEvent where
  Types : Go.slice (Go.ptr String)
  Pos : Go.ptr Pos
  deriving DecidableEq

/-- The method `func (e *RepositoryDispatchEvent) EventName() string`: the receiver is not read. -/
def RepositoryDispatchEvent.EventName (_e : Go.ptr RepositoryDispatchEvent) : Go.string :=
  "repository_dispatch"

/-- Event interface represents workflow events in the `on` section: the dynamic
types of the package that have the method `EventName() string`. -/
inductive Event where
  | ofWebhookEvent (e : Go.ptr WebhookEvent)
  | ofScheduledEvent (e : Go.ptr ScheduledEvent)
  | ofWorkflowDispatchEvent (e : Go.ptr WorkflowDispatchEvent)
  | ofRepositoryDispatchEvent (e : Go.ptr RepositoryDispatchEvent)
  deriving DecidableEq

/-- The interface call `ev.EventName()`: dispatch on the dynamic type; a nil
interface panics. -/
def Event.EventName : Go.iface Event → Except Go.Panic Go.string
  | none => .error .nilDereference
  | some (.ofWebhookEvent e) => WebhookEvent.EventName e
  | some (.ofScheduledEvent e) => .ok (ScheduledEvent.EventName e)
  | some (.ofWorkflowDispatchEvent e) => .ok (WorkflowDispatchEvent.EventName e)
  | some (.ofRepositoryDispatchEvent e) => .ok (RepositoryDispatchEvent.EventName e)

/-- The kind of a permission, a `uint8`. -/
abbrev PermKind := Go.uint8

/-- The constant `PermKindNone PermKind = iota`. -/
def PermKindNone : PermKind := 0

/-- The constant `PermKindRead`. -/
def PermKindRead : PermKind := 1

/-- The constant `PermKindWrite`. -/
def PermKindWrite : PermKind := 2

/-- One permission. Name is name of permission; this value is nil when it
represents all scopes (read-all or write-all). -/
structure Permission where
  Name : Go.ptr String
  Kind : PermKind
  Pos : Go.ptr Pos
  deriving DecidableEq

/-- The `permissions` section. All represents read-all or write-all, which define
permissions of all scopes at once; Scopes is mappings from permission name to
permission value. -/
structure Permissions where
  All : Go.ptr Permission
  Scopes : Go.map (Go.ptr Permission)
  Pos : Go.ptr Pos
  deriving DecidableEq

/-- The `defaults.run` section. -/
structure DefaultsRun where
  Shell : Go.ptr String
  WorkingDirectory : Go.ptr String
  Pos : Go.ptr Pos
  deriving DecidableEq

/-- The `defaults` section. -/
structure Defaults where
  Run : Go.ptr DefaultsRun
  Pos : Go.ptr Pos
  deriving DecidableEq

/-- The `concurrency` section. -/
structure Concurrency where
  Group : Go.ptr String
  CancelInProgress : Go.ptr Bool
  Pos : Go.ptr Pos
  deriving DecidableEq

/-- The `environment` section of a job. -/
structure Environment where
  Name : Go.ptr String
  URL : Go.ptr String
  Pos : Go.ptr Pos
  deriving DecidableEq

/-- The kind of an execution, a `uint8`. -/
abbrev ExecKind := Go.uint8

/-- The constant `ExecKindAction ExecKind = iota`. -/
def ExecKindAction : ExecKind := 0

/-- The constant `ExecKindRun`. -/
def ExecKindRun : ExecKind := 1

/-- A step that runs a script. -/
structure ExecRun where
  Run : Go.ptr String
  Shell : Go.ptr String
  WorkingDirectory : Go.ptr String
  deriving DecidableEq

/-- The method `func (r *ExecRun) Kind() ExecKind`: the receiver is not read. -/
def ExecRun.Kind (_r : Go.ptr ExecRun) : ExecKind :=
  ExecKindRun

/-- One input of an action, in its `with` section. -/
structure Input where
  Name : Go.ptr String
  Value : Go.ptr String
  deriving DecidableEq

/-- A step that runs an action. -/
structure ExecAction where
  Uses : Go.ptr String
  Inputs : Go.map (Go.ptr Input)
  Entrypoint : Go.ptr String
  Args : Go.ptr String
  deriving DecidableEq

/-- The method `func (r *ExecAction) Kind() ExecKind`: the receiver is not read. -/
def ExecAction.Kind (_r : Go.ptr ExecAction) : ExecKind :=
  ExecKindAction

/-- Exec is an interface how the step is executed: the dynamic types of the
package that have the method `Kind() ExecKind`. -/
inductive Exec where
  | ofExecRun (r : Go.ptr ExecRun)
  | ofExecAction (r : Go.ptr ExecAction)
  deriving DecidableEq

/-- The interface call `x.Kind()`: dispatch on the dynamic type; a nil interface
panics. -/
def Exec.Kind : Go.iface Exec → Except Go.Panic ExecKind
  | none => .error .nilDereference
  | some (.ofExecRun r) => .ok (ExecRun.Kind r)
  | some (.ofExecAction r) => .ok (ExecAction.Kind r)

/-- The type assertion `r, ok := x.(*ExecRun)`: `some r` when `ok`. -/
def Exec.asExecRun : Go.iface Exec → Option (Go.ptr ExecRun)
  | some (.ofExecRun r) => some r
  | _ => none

/-- The type assertion `r, ok := x.(*ExecAction)`: `some r` when `ok`. -/
def Exec.asExecAction : Go.iface Exec → Option (Go.ptr ExecAction)
  | some (.ofExecAction r) => some r
  | _ => none

/-- One row of a matrix. -/
structure MatrixRow where
  Name : Go.ptr String
  Values : Go.slice (Go.ptr String)
  deriving DecidableEq

/-- One key and value of an `include` or `exclude` entry of a matrix. -/
structure MatrixCombination where
  Key : Go.ptr String
  Value : Go.ptr String
  deriving DecidableEq

/-- The `matrix` section of a strategy. -/
structure Matrix where
  Rows : Go.map (Go.ptr MatrixRow)
  Include : Go.slice (Go.map (Go.ptr MatrixCombination))
  Exclude : Go.slice (Go.map (Go.ptr MatrixCombination))
  Pos : Go.ptr Pos
  deriving DecidableEq

/-- The `strategy` section of a job. -/
structure Strategy where
  Matrix : Go.ptr Matrix
  FailFast : Go.ptr Bool
  MaxParallel : Go.ptr Int
  Pos : Go.ptr Pos
  deriving DecidableEq

/-- One environment variable. -/
structure EnvVar where
  Name : Go.ptr String
  Value : Go.ptr String
  deriving DecidableEq

/-- One step of a job. -/
structure Step where
  ID : Go.ptr String
  If : Go.ptr String
  Name : Go.ptr String
  Exec : Go.iface Exec
  Env : Go.map (Go.ptr EnvVar)
  ContinueOnError : Go.ptr Bool
  TimeoutMinutes : Go.ptr Float
  Pos : Go.ptr Pos

/-- The `credentials` section of a container. -/
structure Credentials where
  Username : Go.ptr String
  Password : Go.ptr String
  Pos : Go.ptr Pos
  deriving DecidableEq

/-- The `container` section of a job. -/
structure Container where
  Image : Go.ptr String
  Credentials : Go.ptr Credentials
  Env : Go.map (Go.ptr EnvVar)
  Ports : Go.slice (Go.ptr String)
  Volumes : Go.slice (Go.ptr String)
  Options : Go.ptr String
  Pos : Go.ptr Pos
  deriving DecidableEq

/-- One service of a job; the field is spelled `Contaienr` in the source. -/
structure Service where
  Name : Go.ptr String
  Contaienr : Go.ptr Container
  deriving DecidableEq

/-- One output of a job. -/
structure Output where
  Name : Go.ptr String
  Value : Go.ptr String
  deriving DecidableEq

/-- A runner hosted by GitHub. -/
structure GitHubHostedRunner where
  Label : Go.ptr String
  Pos : Go.ptr Pos
  deriving DecidableEq

/-- The method `func (r GitHubHostedRunner) GetLabel() string { return r.Label.Value }`:
a value receiver; `r.Label` is dereferenced. -/
def GitHubHostedRunner.GetLabel (r : GitHubHostedRunner) : Except Go.Panic Go.string := do
  let label ← Go.deref r.Label
  return label.Value

/-- A self-hosted runner. Labels is list of additional labels for self-hosted
runner: `runs-on: [self-hosted, linux, ARM64]` sets "linux" and "ARM64" in this
field. -/
structure SelfHostedRunner where
  Labels : Go.slice (Go.ptr String)
  Pos : Go.ptr Pos
  deriving DecidableEq

/-- The method `func (r *SelfHostedRunner) GetLabel() string`: the receiver is not read. -/
def SelfHostedRunner.GetLabel (_r : Go.ptr SelfHostedRunner) : Go.string :=
  "self-hosted"

/-- The interface `Runner`: the dynamic types of the package that have the method
`GetLabel() string`. `GitHubHostedRunner` has a value receiver, so both the
value and its pointer implement the interface; `SelfHostedRunner` has a pointer
receiver. -/
inductive Runner where
  | ofGitHubHostedRunner (r : GitHubHostedRunner)
  | ofGitHubHostedRunnerPtr (r : Go.ptr GitHubHostedRunner)
  | ofSelfHostedRunner (r : Go.ptr SelfHostedRunner)
  deriving DecidableEq

/-- The interface call `r.GetLabel()`: dispatch on the dynamic type; a nil
interface panics, and so does the nil pointer to a `GitHubHostedRunner`, which
the call copies to the value receiver. -/
def Runner.GetLabel : Go.iface Runner → Except Go.Panic Go.string
  | none => .error .nilDereference
  | some (.ofGitHubHostedRunner r) => GitHubHostedRunner.GetLabel r
  | some (.ofGitHubHostedRunnerPtr r) => do
    let r ← Go.deref r
    GitHubHostedRunner.GetLabel r
  | some (.ofSelfHostedRunner r) => .ok (SelfHostedRunner.GetLabel r)

/-- One job of a workflow. -/
structure Job where
  ID : Go.ptr String
  Name : Go.ptr String
  Needs : Go.slice (Go.ptr String)
  RunsOn : Go.iface Runner
  Permissions : Go.ptr Permissions
  Environment : Go.ptr Environment
  Concurrency : Go.ptr Concurrency
  Outputs : Go.map (Go.ptr Output)
  Env : Go.map (Go.ptr EnvVar)
  Defaults : Go.ptr Defaults
  If : Go.ptr String
  Steps : Go.slice (Go.ptr Step)
  TimeoutMinutes : Go.ptr Float
  Strategy : Go.ptr Strategy
  ContinueOnError : Go.ptr Bool
  Container : Go.ptr Container
  Services : Go.map (Go.ptr Service)
  Pos : Go.ptr Pos

/-- The root of the tree. Jobs is mappings from job ID to the job object. -/
structure Workflow where
  Name : Go.ptr String
  On : Go.slice (Go.iface Event)
  Permissions : Go.ptr Permissions
  Env : Go.map (Go.ptr EnvVar)
  Defaults : Go.ptr Defaults
  Concurrency : Go.ptr Concurrency
  Jobs : Go.map (Go.ptr Job)

/-! ## Concrete values -/

/-- The value `WebhookEvent{Hook: &String{Value: "push"}}`: a `push` trigger with no filters. -/
def WebhookEvent.push : WebhookEvent :=
  { Hook := some ⟨"push", none⟩, Types := none, Branches := none, BranchesIgnore := none,
    Tags := none, TagsIgnore := none, Paths := none, PathsIgnore := none, Workflows := none,
    Pos := none }

/-- The zero value `WebhookEvent{}`: every field nil. -/
def WebhookEvent.zero : WebhookEvent :=
  { Hook := none, Types := none, Branches := none, BranchesIgnore := none,
    Tags := none, TagsIgnore := none, Paths := none, PathsIgnore := none, Workflows := none,
    Pos := none }

/-- The zero value `GitHubHostedRunner{}`: every field nil. -/
def GitHubHostedRunner.zero : GitHubHostedRunner :=
  { Label := none, Pos := none }

/-- The value `GitHubHostedRunner{Label: &String{Value: "ubuntu-latest"}}`. -/
def GitHubHostedRunner.ubuntuLatest : GitHubHostedRunner :=
  { Label := some ⟨"ubuntu-latest", none⟩, Pos := none }

/-- The zero value `Step{}`: every field nil, the `Exec` interface included. -/
def Step.zero : Step :=
  { ID := none, If := none, Name := none, Exec := none, Env := none, ContinueOnError := none,
    TimeoutMinutes := none, Pos := none }

/-- The zero value `String{}`. -/
def String.zero : String := { Value := "", Pos := none }

/-- The zero value `Bool{}`. -/
def Bool.zero : Bool := { Value := false, Pos := none }

/-- The zero value `Int{}`. -/
def Int.zero : Int := { Value := 0, Pos := none }

/-- The zero value `Float{}`. -/
def Float.zero : Float := { Value := 0, Pos := none }

/-- The blanket grant `write-all`: a `Permission` with nil `Name`. -/
def Permission.writeAll : Permission :=
  { Name := none, Kind := PermKindWrite, Pos := none }

/-- The scoped grant `issues: read`. -/
def Permission.issuesRead : Permission :=
  { Name := some ⟨"issues", none⟩, Kind := PermKindRead, Pos := none }

/-- The value `Permissions{All: write-all, Scopes: {"issues": read}}`: both fields populated. -/
def Permissions.allAndScopes : Permissions :=
  { All := some Permission.writeAll,
    Scopes := some (Finmap.singleton "issues" (some Permission.issuesRead)),
    Pos := none }

/-- The value `Permissions` built from the flags `a` and `s`: `All` is present iff `a`, and
`Scopes` holds the one entry `issues: read` iff `s` (it is nil otherwise). -/
def Permissions.ofFlags (a s : Go.bool) : Permissions :=
  { All := if a then some Permission.writeAll else none,
    Scopes := if s then some (Finmap.singleton "issues" (some Permission.issuesRead)) else none,
    Pos := none }

/-- The value `Credentials{Username: &String{Value: "octocat"}}`: Password is nil. -/
def Credentials.usernameOnly : Credentials :=
  { Username := some ⟨"octocat", none⟩, Password := none, Pos := none }

/-- The value `Credentials` built from the flags `u` and `p`: Username is set iff `u`, and
Password is set iff `p`. -/
def Credentials.ofFlags (u p : Go.bool) : Credentials :=
  { Username := if u then some ⟨"octocat", none⟩ else none,
    Password := if p then some ⟨"hunter2", none⟩ else none,
    Pos := none }

/-- The value `Container{Credentials: &c}`: a container on which the credentials `c` are
present, every other field nil. -/
def Container.ofCredentials (c : Actionlint.Credentials) : Container :=
  { Image := none, Credentials := some c, Env := none, Ports := none, Volumes := none,
    Options := none, Pos := none }

/-- The value `Permissions{All: issues-read, Scopes: {"issues": write-all}}`: the Permission
in All has a Name, and the Permission under the key "issues" has none. -/
def Permissions.namesSwapped : Permissions :=
  { All := some Permission.issuesRead,
    Scopes := some (Finmap.singleton "issues" (some Permission.writeAll)),
    Pos := none }

/-- The value `Permissions{Scopes: {"issues": read}}`: no blanket grant. -/
def Permissions.scopesOnly : Permissions :=
  { All := none,
    Scopes := some (Finmap.singleton "issues" (some Permission.issuesRead)),
    Pos := none }

/-- Modelled from the spec: the lookup of a scope's effective permission on a
Permissions value (section 4.3), for which the source file declares the types PermKind,
Permission and Permissions but no function. The blanket grant is checked first and, if
present, overrides all individual entries; the lookup then falls back to the scoped
mapping, and defaults to "none" if the scope key is absent from both. An entry that
holds a nil pointer carries no Permission and is read as absent. -/
def Permissions.effectiveKind (perms : Permissions) (scope : Go.string) : PermKind :=
  match perms.All with
  | some all => all.Kind
  | none =>
    match perms.Scopes.bind (Finmap.lookup scope) with
    | some (some perm) => perm.Kind
    | _ => PermKindNone

/-- The value `WebhookEvent{Hook: &String{Value: name}}`: a webhook trigger of the given
name with no filters. -/
def WebhookEvent.named (name : Go.string) : WebhookEvent :=
  { Hook := some ⟨name, none⟩, Types := none, Branches := none, BranchesIgnore := none,
    Tags := none, TagsIgnore := none, Paths := none, PathsIgnore := none, Workflows := none,
    Pos := none }

/-- The type assertion `w, ok := ev.(*WebhookEvent)`: `some w` when `ok`. -/
def Event.asWebhookEvent : Go.iface Event → Option (Go.ptr WebhookEvent)
  | some (.ofWebhookEvent e) => some e
  | _ => none

/-! ## Events -/

/-- C1: for every WebhookEvent `e` whose Hook is set, `EventName` returns exactly
`e.Hook.Value`, whatever the other fields (Types, Branches, BranchesIgnore, Tags,
TagsIgnore, Paths, PathsIgnore, Workflows, Pos) hold; the call through the `Event`
interface returns the same. -/
theorem webhookEvent_eventName_eq_hook_value (e : WebhookEvent) (hook : String)
    (h : e.Hook = some hook) :
    WebhookEvent.EventName (some e) = .ok hook.Value ∧
    Event.EventName (some (.ofWebhookEvent (some e))) = .ok hook.Value := by
  have key : WebhookEvent.EventName (some e) = .ok hook.Value := by
    cases e
    cases h
    rfl
  exact ⟨key, key⟩

/-- The instance of C1 at the `push` trigger with no filters: its name is "push". -/
theorem webhookEvent_eventName_eq_hook_value_witness :
    WebhookEvent.push.Hook = some ⟨"push", none⟩ ∧
    WebhookEvent.EventName (some WebhookEvent.push) = .ok "push" ∧
    Event.EventName (some (.ofWebhookEvent (some WebhookEvent.push))) = .ok "push" :=
  ⟨rfl, webhookEvent_eventName_eq_hook_value WebhookEvent.push ⟨"push", none⟩ rfl⟩

/-- C2: `EventName` of every ScheduledEvent, WorkflowDispatchEvent and
RepositoryDispatchEvent (whatever Cron, Inputs, Types and Pos hold, the nil receiver
included) is "schedule", "workflow_dispatch" and "repository_dispatch" respectively,
also through the `Event` interface, and the three names are pairwise distinct. -/
theorem fixed_eventNames (s : Go.ptr ScheduledEvent) (w : Go.ptr WorkflowDispatchEvent)
    (r : Go.ptr RepositoryDispatchEvent) :
    ScheduledEvent.EventName s = "schedule" ∧
    WorkflowDispatchEvent.EventName w = "workflow_dispatch" ∧
    RepositoryDispatchEvent.EventName r = "repository_dispatch" ∧
    Event.EventName (some (.ofScheduledEvent s)) = .ok "schedule" ∧
    Event.EventName (some (.ofWorkflowDispatchEvent w)) = .ok "workflow_dispatch" ∧
    Event.EventName (some (.ofRepositoryDispatchEvent r)) = .ok "repository_dispatch" ∧
    ScheduledEvent.EventName s ≠ WorkflowDispatchEvent.EventName w ∧
    ScheduledEvent.EventName s ≠ RepositoryDispatchEvent.EventName r ∧
    WorkflowDispatchEvent.EventName w ≠ RepositoryDispatchEvent.EventName r := by
  refine ⟨rfl, rfl, rfl, rfl, rfl, rfl, ?_, ?_, ?_⟩ <;>
    simp only [ScheduledEvent.EventName, WorkflowDispatchEvent.EventName,
      RepositoryDispatchEvent.EventName] <;> decide

/-! ## Steps and executions -/

/-- C3, as stated, fails at the zero value `Step{}`: its `Exec` is the nil interface,
from which neither an ExecRun nor an ExecAction is retrievable, and `Kind()` panics. -/
theorem step_zero_exec_neither_retrievable :
    ¬ (((Exec.asExecRun Step.zero.Exec).isSome = true ∧
          (Exec.asExecAction Step.zero.Exec).isSome = false) ∨
        ((Exec.asExecRun Step.zero.Exec).isSome = false ∧
          (Exec.asExecAction Step.zero.Exec).isSome = true)) ∧
    Exec.Kind Step.zero.Exec = .error .nilDereference := by
  refine ⟨?_, rfl⟩
  simp [Step.zero, Exec.asExecRun, Exec.asExecAction]

/-- C3, amended: for every Step, exactly one of ExecRun and ExecAction is retrievable
from its `Exec` field if and only if the field is not nil (and never both); `Kind()`
returns ExecKindRun if and only if the Exec is an ExecRun, and ExecKindAction if and
only if it is an ExecAction; ExecKindRun differs from ExecKindAction. -/
theorem step_exec_kind_identifies_variant (s : Step) :
    ((((Exec.asExecRun s.Exec).isSome = true ∧ (Exec.asExecAction s.Exec).isSome = false) ∨
        ((Exec.asExecRun s.Exec).isSome = false ∧ (Exec.asExecAction s.Exec).isSome = true)) ↔
      s.Exec.isSome = true) ∧
    ¬ ((Exec.asExecRun s.Exec).isSome = true ∧ (Exec.asExecAction s.Exec).isSome = true) ∧
    (Exec.Kind s.Exec = .ok ExecKindRun ↔ (Exec.asExecRun s.Exec).isSome = true) ∧
    (Exec.Kind s.Exec = .ok ExecKindAction ↔ (Exec.asExecAction s.Exec).isSome = true) ∧
    ExecKindRun ≠ ExecKindAction := by
  have hne : ExecKindRun ≠ ExecKindAction := by decide
  rcases hx : s.Exec with _ | (r | a)
  · simp [Exec.asExecRun, Exec.asExecAction, Exec.Kind, hne]
  · simp [Exec.asExecRun, Exec.asExecAction, Exec.Kind, ExecRun.Kind, hne]
  · simp [Exec.asExecRun, Exec.asExecAction, Exec.Kind, ExecAction.Kind, hne, hne.symm]

/-! ## Runners -/

/-- C4: for every GitHubHostedRunner `r` whose Label is set, `GetLabel` returns exactly
`r.Label.Value`, whatever `r.Pos` holds; the call through the `Runner` interface, on
the value or on a pointer to it, returns the same. -/
theorem gitHubHostedRunner_getLabel_eq_label_value (r : GitHubHostedRunner) (label : String)
    (h : r.Label = some label) :
    GitHubHostedRunner.GetLabel r = .ok label.Value ∧
    Runner.GetLabel (some (.ofGitHubHostedRunner r)) = .ok label.Value ∧
    Runner.GetLabel (some (.ofGitHubHostedRunnerPtr (some r))) = .ok label.Value := by
  have key : GitHubHostedRunner.GetLabel r = .ok label.Value := by
    cases r
    cases h
    rfl
  exact ⟨key, key, key⟩

/-- The instance of C4 at the hosted runner with label "ubuntu-latest". -/
theorem gitHubHostedRunner_getLabel_eq_label_value_witness :
    GitHubHostedRunner.ubuntuLatest.Label = some ⟨"ubuntu-latest", none⟩ ∧
    GitHubHostedRunner.GetLabel GitHubHostedRunner.ubuntuLatest = .ok "ubuntu-latest" ∧
    Runner.GetLabel (some (.ofGitHubHostedRunner GitHubHostedRunner.ubuntuLatest)) =
      .ok "ubuntu-latest" ∧
    Runner.GetLabel (some (.ofGitHubHostedRunnerPtr (some GitHubHostedRunner.ubuntuLatest))) =
      .ok "ubuntu-latest" :=
  ⟨rfl, gitHubHostedRunner_getLabel_eq_label_value GitHubHostedRunner.ubuntuLatest
    ⟨"ubuntu-latest", none⟩ rfl⟩

/-- C5: for every SelfHostedRunner, built from any `Labels` (the nil slice, the empty
slice or any list) and any `Pos`, `GetLabel` returns the base label "self-hosted", also
through the `Runner` interface and on the nil receiver; the `Labels` field holds exactly
the list it was given, in its order and of its length, so the base label is neither
read from it nor put into it. -/
theorem selfHostedRunner_getLabel_base_label (labels : Go.slice (Go.ptr String))
    (pos : Go.ptr Pos) :
    SelfHostedRunner.GetLabel (some ⟨labels, pos⟩) = "self-hosted" ∧
    SelfHostedRunner.GetLabel (some ⟨none, pos⟩) = "self-hosted" ∧
    SelfHostedRunner.GetLabel (some ⟨some [], pos⟩) = "self-hosted" ∧
    SelfHostedRunner.GetLabel none = "self-hosted" ∧
    Runner.GetLabel (some (.ofSelfHostedRunner (some ⟨labels, pos⟩))) = .ok "self-hosted" ∧
    (SelfHostedRunner.mk labels pos).Labels = labels ∧
    Go.lenSlice (SelfHostedRunner.mk labels pos).Labels = Go.lenSlice labels :=
  ⟨rfl, rfl, rfl, rfl, rfl, rfl, rfl⟩

/-! ## Permissions -/

/-- C6, as stated, fails at `Permissions{All: write-all, Scopes: {"issues": read}}`: the
type holds a value whose All is present while its Scopes has an entry. -/
theorem permissions_all_and_scopes_both_populated :
    Permissions.allAndScopes.All.isSome = true ∧
    0 < Go.lenMap Permissions.allAndScopes.Scopes ∧
    Permissions.allAndScopes.All = some Permission.writeAll ∧
    (Permissions.allAndScopes.Scopes.bind (Finmap.lookup "issues")) =
      some (some Permission.issuesRead) := by
  refine ⟨rfl, ?_, rfl, ?_⟩
  · simp [Permissions.allAndScopes, Go.lenMap, Finmap.keys_singleton]
  · simp [Permissions.allAndScopes, Finmap.lookup_singleton_eq]

/-- C6, amended: All and Scopes are two independent fields of Permissions, and the type
excludes no combination of them: for each choice of "All present or nil" and of "Scopes
non-empty or empty" there is a Permissions value, so a value may have either one
populated, both, or neither. -/
theorem permissions_all_scopes_independent (a s : Go.bool) :
    (Permissions.ofFlags a s).All.isSome = a ∧
    decide (0 < Go.lenMap (Permissions.ofFlags a s).Scopes) = s := by
  cases a <;> cases s <;>
    simp [Permissions.ofFlags, Go.lenMap, Finmap.keys_singleton]

/-! ## Failure -/

/-- C7, as stated, fails at the zero values `WebhookEvent{}` and `GitHubHostedRunner{}`:
with Hook and Label unset, `EventName` and `GetLabel` panic on the nil dereference. -/
theorem eventName_getLabel_panic_on_unset_field :
    WebhookEvent.EventName (some WebhookEvent.zero) = .error .nilDereference ∧
    Event.EventName (some (.ofWebhookEvent (some WebhookEvent.zero))) =
      .error .nilDereference ∧
    GitHubHostedRunner.GetLabel GitHubHostedRunner.zero = .error .nilDereference ∧
    Runner.GetLabel (some (.ofGitHubHostedRunner GitHubHostedRunner.zero)) =
      .error .nilDereference :=
  ⟨rfl, rfl, rfl, rfl⟩

/-- C7, amended: `EventName` of a ScheduledEvent, WorkflowDispatchEvent and
RepositoryDispatchEvent, `Kind` of an ExecRun and ExecAction, and `GetLabel` of a
SelfHostedRunner return a result for every value, unset fields included;
`EventName` of a WebhookEvent returns a result exactly when Hook is set, and
`GetLabel` of a GitHubHostedRunner exactly when Label is set. -/
theorem operations_return_unless_unset_field (s : Go.ptr ScheduledEvent)
    (w : Go.ptr WorkflowDispatchEvent) (d : Go.ptr RepositoryDispatchEvent)
    (x : Exec) (sh : Go.ptr SelfHostedRunner) (e : WebhookEvent) (g : GitHubHostedRunner) :
    (∃ n, Event.EventName (some (.ofScheduledEvent s)) = .ok n) ∧
    (∃ n, Event.EventName (some (.ofWorkflowDispatchEvent w)) = .ok n) ∧
    (∃ n, Event.EventName (some (.ofRepositoryDispatchEvent d)) = .ok n) ∧
    (∃ k, Exec.Kind (some x) = .ok k) ∧
    (∃ l, Runner.GetLabel (some (.ofSelfHostedRunner sh)) = .ok l) ∧
    ((∃ n, WebhookEvent.EventName (some e) = .ok n) ↔ e.Hook.isSome = true) ∧
    ((∃ n, Event.EventName (some (.ofWebhookEvent (some e))) = .ok n) ↔
      e.Hook.isSome = true) ∧
    ((∃ l, GitHubHostedRunner.GetLabel g = .ok l) ↔ g.Label.isSome = true) ∧
    ((∃ l, Runner.GetLabel (some (.ofGitHubHostedRunner g)) = .ok l) ↔
      g.Label.isSome = true) := by
  have hx : ∃ k, Exec.Kind (some x) = .ok k := by
    cases x
    · exact ⟨_, rfl⟩
    · exact ⟨_, rfl⟩
  have he : (∃ n, WebhookEvent.EventName (some e) = .ok n) ↔ e.Hook.isSome = true := by
    obtain ⟨hook, _⟩ := e
    cases hook
    · constructor
      · rintro ⟨n, hn⟩
        cases hn
      · intro h
        cases h
    · exact ⟨fun _ => rfl, fun _ => ⟨_, rfl⟩⟩
  have hg : (∃ l, GitHubHostedRunner.GetLabel g = .ok l) ↔ g.Label.isSome = true := by
    obtain ⟨label, _⟩ := g
    cases label
    · constructor
      · rintro ⟨n, hn⟩
        cases hn
      · intro h
        cases h
    · exact ⟨fun _ => rfl, fun _ => ⟨_, rfl⟩⟩
  exact ⟨⟨_, rfl⟩, ⟨_, rfl⟩, ⟨_, rfl⟩, hx, ⟨_, rfl⟩, he, he, hg, hg⟩

/-! ## Scalar wrappers -/

/-- C8, as stated, fails at the zero values `String{}`, `Bool{}`, `Int{}` and `Float{}`:
each is a wrapper value whose Pos is nil. -/
theorem wrapper_zero_value_has_no_pos :
    String.zero.Pos.isSome = false ∧ Bool.zero.Pos.isSome = false ∧
    Int.zero.Pos.isSome = false ∧ Float.zero.Pos.isSome = false :=
  ⟨rfl, rfl, rfl, rfl⟩

/-- C8, amended: every String, Bool, Int and Float wrapper has a Pos field holding a
pointer to a position, and the position is present exactly when one was given at
construction: a wrapper built with a position carries it, a wrapper built with nil
keeps nil, and nothing is filled in by default. -/
theorem wrapper_pos_present_iff_given (sv : Go.string) (bv : Go.bool) (iv : Go.int)
    (fv : Go.float64) (p : Go.ptr Pos) (q : Pos) :
    (String.mk sv p).Pos.isSome = p.isSome ∧ (Bool.mk bv p).Pos.isSome = p.isSome ∧
    (Int.mk iv p).Pos.isSome = p.isSome ∧ (Float.mk fv p).Pos.isSome = p.isSome ∧
    (String.mk sv (some q)).Pos.isSome = true ∧ (Bool.mk bv (some q)).Pos.isSome = true ∧
    (Int.mk iv (some q)).Pos.isSome = true ∧ (Float.mk fv (some q)).Pos.isSome = true ∧
    (String.mk sv none).Pos.isSome = false ∧ (Bool.mk bv none).Pos.isSome = false ∧
    (Int.mk iv none).Pos.isSome = false ∧ (Float.mk fv none).Pos.isSome = false :=
  ⟨rfl, rfl, rfl, rfl, rfl, rfl, rfl, rfl, rfl, rfl, rfl, rfl⟩

/-- C9: a Step whose If field is absent (nil) is never equal to the Step that has the
same other fields and an If field present with the empty string as its Value; the two
are told apart by testing the field against nil, and all their other fields agree. -/
theorem step_if_absent_ne_if_empty (s : Step) (p : Go.ptr Pos) :
    ({ s with If := none } : Step) ≠ { s with If := some ⟨"", p⟩ } ∧
    ({ s with If := none } : Step).If.isSome = false ∧
    ({ s with If := some ⟨"", p⟩ } : Step).If.isSome = true ∧
    ({ s with If := some ⟨"", p⟩ } : Step).If.map String.Value = some "" ∧
    ({ s with If := none } : Step).ID = ({ s with If := some ⟨"", p⟩ } : Step).ID ∧
    ({ s with If := none } : Step).Name = ({ s with If := some ⟨"", p⟩ } : Step).Name ∧
    ({ s with If := none } : Step).Exec = ({ s with If := some ⟨"", p⟩ } : Step).Exec ∧
    ({ s with If := none } : Step).Env = ({ s with If := some ⟨"", p⟩ } : Step).Env ∧
    ({ s with If := none } : Step).ContinueOnError =
      ({ s with If := some ⟨"", p⟩ } : Step).ContinueOnError ∧
    ({ s with If := none } : Step).TimeoutMinutes =
      ({ s with If := some ⟨"", p⟩ } : Step).TimeoutMinutes ∧
    ({ s with If := none } : Step).Pos = ({ s with If := some ⟨"", p⟩ } : Step).Pos := by
  refine ⟨?_, rfl, rfl, rfl, rfl, rfl, rfl, rfl, rfl, rfl, rfl⟩
  intro h
  have hIf := congrArg Step.If h
  cases hIf

/-- C10: the String, Bool, Int and Float wrapper constructed from a raw value `v` and a
position `p` gives back Value = `v` and Pos = `p`; changing the position leaves Value
unchanged and changing the raw value leaves Pos unchanged. -/
theorem wrapper_value_pos_recoverable (sv sv2 : Go.string) (bv bv2 : Go.bool)
    (iv iv2 : Go.int) (fv fv2 : Go.float64) (p p2 : Go.ptr Pos) :
    ((String.mk sv p).Value = sv ∧ (String.mk sv p).Pos = p) ∧
    ((Bool.mk bv p).Value = bv ∧ (Bool.mk bv p).Pos = p) ∧
    ((Int.mk iv p).Value = iv ∧ (Int.mk iv p).Pos = p) ∧
    ((Float.mk fv p).Value = fv ∧ (Float.mk fv p).Pos = p) ∧
    ((String.mk sv p2).Value = (String.mk sv p).Value ∧
      (String.mk sv2 p).Pos = (String.mk sv p).Pos) ∧
    ((Bool.mk bv p2).Value = (Bool.mk bv p).Value ∧
      (Bool.mk bv2 p).Pos = (Bool.mk bv p).Pos) ∧
    ((Int.mk iv p2).Value = (Int.mk iv p).Value ∧
      (Int.mk iv2 p).Pos = (Int.mk iv p).Pos) ∧
    ((Float.mk fv p2).Value = (Float.mk fv p).Value ∧
      (Float.mk fv2 p).Pos = (Float.mk fv p).Pos) :=
  ⟨⟨rfl, rfl⟩, ⟨rfl, rfl⟩, ⟨rfl, rfl⟩, ⟨rfl, rfl⟩, ⟨rfl, rfl⟩, ⟨rfl, rfl⟩, ⟨rfl, rfl⟩,
    ⟨rfl, rfl⟩⟩

/-! ## Credentials -/

/-- C11, as stated, fails at `Container{Credentials: &Credentials{Username: "octocat"}}`:
the Credentials value is present on the Container with its Username set and its Password
nil. -/
theorem container_credentials_username_only :
    (Container.ofCredentials Credentials.usernameOnly).Credentials =
      some Credentials.usernameOnly ∧
    Credentials.usernameOnly.Username.isSome = true ∧
    Credentials.usernameOnly.Password.isSome = false :=
  ⟨rfl, rfl, rfl⟩

/-- C11, amended: Username and Password are two independent pointer fields of
Credentials, and the type excludes no combination of them: for each choice of "Username
set or nil" and of "Password set or nil" there is a Container on which a Credentials
value of that choice is present, so both, only one, or neither may be set. -/
theorem credentials_username_password_independent (u p : Go.bool) :
    (Container.ofCredentials (Credentials.ofFlags u p)).Credentials =
      some (Credentials.ofFlags u p) ∧
    (Credentials.ofFlags u p).Username.isSome = u ∧
    (Credentials.ofFlags u p).Password.isSome = p := by
  cases u <;> cases p <;> exact ⟨rfl, rfl, rfl⟩

/-! ## Blanket and scoped grants -/

/-- C12, as stated, fails at `Permissions{All: issues-read, Scopes: {"issues": write-all}}`:
All is present with its Name set, and the Scopes entry under "issues" has a nil Name. -/
theorem permissions_all_named_and_scope_unnamed :
    (Permissions.namesSwapped.All.bind Permission.Name).isSome = true ∧
    Permissions.namesSwapped.Scopes.bind (Finmap.lookup "issues") =
      some (some Permission.writeAll) ∧
    Permission.writeAll.Name = none := by
  refine ⟨rfl, ?_, rfl⟩
  simp [Permissions.namesSwapped, Finmap.lookup_singleton_eq]

/-- C12, amended: a blanket grant is recorded as the Permission held by All and a scoped
grant as a Permission stored in Scopes under its key; a scope-less Permission (nil Name)
can be recorded in All, and a named one in Scopes, but in both places the Permission
keeps whatever Name it was built with, nil or set. -/
theorem permissions_record_permission_name_as_given (name : Go.ptr String) (kind : PermKind)
    (pos : Go.ptr Pos) (key : Go.string) (scopes : Go.map (Go.ptr Permission)) :
    (Permissions.mk (some ⟨name, kind, pos⟩) scopes none).All.bind Permission.Name = name ∧
    (Permissions.mk (some ⟨none, kind, pos⟩) scopes none).All.bind Permission.Name = none ∧
    (Permissions.mk none (some (Finmap.singleton key (some ⟨name, kind, pos⟩)))
        none).Scopes.bind (Finmap.lookup key) = some (some ⟨name, kind, pos⟩) ∧
    (((Permissions.mk none (some (Finmap.singleton key (some ⟨name, kind, pos⟩)))
        none).Scopes.bind (Finmap.lookup key)).bind id).bind Permission.Name = name := by
  refine ⟨rfl, rfl, ?_, ?_⟩
  · simp [Finmap.lookup_singleton_eq]
  · simp [Finmap.lookup_singleton_eq]

/-- C13: the lookup of a scope's effective permission returns, for every scope name, the
blanket grant's kind when All is present (whatever Scopes holds for that name),
otherwise the kind of the Scopes entry for that name, and PermKindNone when the name is
in neither. -/
theorem permissions_effectiveKind_lookup (perms : Permissions) (name : Go.string) :
    (∀ all : Permission, perms.All = some all →
      Permissions.effectiveKind perms name = all.Kind) ∧
    (perms.All = none → ∀ perm : Permission,
      perms.Scopes.bind (Finmap.lookup name) = some (some perm) →
      Permissions.effectiveKind perms name = perm.Kind) ∧
    (perms.All = none → perms.Scopes.bind (Finmap.lookup name) = none →
      Permissions.effectiveKind perms name = PermKindNone) := by
  refine ⟨?_, ?_, ?_⟩
  · intro all h
    simp [Permissions.effectiveKind, h]
  · intro h perm hs
    simp [Permissions.effectiveKind, h, hs]
  · intro h hs
    simp [Permissions.effectiveKind, h, hs]

/-- The instances of C13 at `write-all` with `issues: read` (the blanket grant wins: write),
and at `issues: read` alone (read for "issues", none for "contents"). -/
theorem permissions_effectiveKind_lookup_witness :
    Permissions.effectiveKind Permissions.allAndScopes "issues" = PermKindWrite ∧
    Permissions.effectiveKind Permissions.scopesOnly "issues" = PermKindRead ∧
    Permissions.effectiveKind Permissions.scopesOnly "contents" = PermKindNone :=
  ⟨(permissions_effectiveKind_lookup Permissions.allAndScopes "issues").1
      Permission.writeAll rfl,
    (permissions_effectiveKind_lookup Permissions.scopesOnly "issues").2.1 rfl
      Permission.issuesRead (by simp [Permissions.scopesOnly, Finmap.lookup_singleton_eq]),
    (permissions_effectiveKind_lookup Permissions.scopesOnly "contents").2.2 rfl
      (by simp [Permissions.scopesOnly, Finmap.lookup_eq_none, Finmap.mem_singleton])⟩

/-! ## Names and variants -/

/-- C14: `EventName` does not identify the variant of an Event. The WebhookEvent whose
Hook is "schedule" has the name of every ScheduledEvent, the one whose Hook is
"workflow_dispatch" the name of every WorkflowDispatchEvent, and the one whose Hook is
"repository_dispatch" the name of every RepositoryDispatchEvent, while in each pair the
two Events are of different variants: the assertion to a WebhookEvent succeeds on one
and fails on the other. -/
theorem eventName_does_not_identify_variant (s : Go.ptr ScheduledEvent)
    (w : Go.ptr WorkflowDispatchEvent) (r : Go.ptr RepositoryDispatchEvent) :
    (Event.EventName (some (.ofWebhookEvent (some (WebhookEvent.named "schedule")))) =
        Event.EventName (some (.ofScheduledEvent s)) ∧
      Event.ofWebhookEvent (some (WebhookEvent.named "schedule")) ≠ Event.ofScheduledEvent s ∧
      (Event.asWebhookEvent
        (some (.ofWebhookEvent (some (WebhookEvent.named "schedule"))))).isSome = true ∧
      (Event.asWebhookEvent (some (.ofScheduledEvent s))).isSome = false) ∧
    (Event.EventName (some (.ofWebhookEvent (some (WebhookEvent.named "workflow_dispatch")))) =
        Event.EventName (some (.ofWorkflowDispatchEvent w)) ∧
      Event.ofWebhookEvent (some (WebhookEvent.named "workflow_dispatch")) ≠
        Event.ofWorkflowDispatchEvent w ∧
      (Event.asWebhookEvent (some (.ofWorkflowDispatchEvent w))).isSome = false) ∧
    (Event.EventName
          (some (.ofWebhookEvent (some (WebhookEvent.named "repository_dispatch")))) =
        Event.EventName (some (.ofRepositoryDispatchEvent r)) ∧
      Event.ofWebhookEvent (some (WebhookEvent.named "repository_dispatch")) ≠
        Event.ofRepositoryDispatchEvent r ∧
      (Event.asWebhookEvent (some (.ofRepositoryDispatchEvent r))).isSome = false) := by
  refine ⟨⟨rfl, ?_, rfl, rfl⟩, ⟨rfl, ?_, rfl⟩, ⟨rfl, ?_, rfl⟩⟩ <;>
    · intro h
      cases h

end Actionlint
